import Mathlib

/-!
Shallow embedding of `src/main.rs` of the `rmrs` hybrid parallel deletion
tool, together with theorems settling the specification claims.

The filesystem is modelled as a static snapshot tree.  Every node carries
annotations recording the outcome the operating system reports for each
syscall the program may issue on that node (`remove_file` failing,
`read_dir` failing, the final `remove_dir` returning `NotFound`, an entry
of a listing failing to yield or failing its `file_type()` call, ...).
The program's functions are translated one-to-one into Lean functions over
this snapshot, with the shared atomic `Stats` counters threaded through as
explicit state.  The rayon `par_iter().for_each` loops are rendered as
sequential folds: the counters are purely additive, so the aggregate they
compute is order-independent, and the claims under study are about the
aggregates, not about interleavings.
-/

set_option maxHeartbeats 1000000

namespace Rmrs

/-- The two classes of `io::Error` the program ever distinguishes: the only
kind inspection in the whole source is `e.kind() != io::ErrorKind::NotFound`
in the top-level cleanup loop. -/
inductive IOErr where
  | notFound
  | other
deriving DecidableEq

/-- Outcome the operating system reports for a `fs::remove_dir` call on a
directory, as annotated on each directory node of the snapshot.
`notFound` models the directory having vanished (e.g. to a racing deletion)
by the time the final removal runs. -/
inductive RmOutcome where
  | ok
  | notFound
  | otherErr
deriving DecidableEq

/-- Behaviour of a single `read_dir` entry of a listing:
`ok` — the iterator yields `Ok(entry)` and `entry.file_type()` succeeds;
`iterErr` — the iterator yields `Err(_)`, so the entry is dropped by
`flatten()` / `filter_map(ok)` / `if let Ok(entry)`;
`typeErr` — the entry is yielded but `entry.file_type()` fails. -/
inductive EntryFault where
  | ok
  | iterErr
  | typeErr
deriving DecidableEq

mutual
/-- Snapshot of one filesystem entity together with the syscall outcomes the
OS returns on it.  `file.size` and `symlink.size` are the lengths
`symlink_metadata` / `DirEntry::metadata` report (neither follows links).
`metaFails` makes the best-effort metadata reads (`if let Ok(metadata) = ...`)
fail; `removeFails` makes `fs::remove_file` fail; `listFails` makes
`fs::read_dir` fail; `rmAllFails` makes `fs::remove_dir_all` fail. -/
inductive FsNode where
  | file (size : Nat) (metaFails : Bool) (removeFails : Bool)
  | symlink (size : Nat) (target : LinkTarget) (removeFails : Bool)
  | dir (listFails : Bool) (rmDir : RmOutcome) (rmAllFails : Bool) (entries : EntryList)

/-- What a symlink resolves to.  Only the facts the program can observe are
kept: whether the link-following `Path::is_dir()` sees a directory, and, if
so, what the link-following `fs::read_dir` lists there. -/
inductive LinkTarget where
  | nonDir
  | toDir (listFails : Bool) (entries : EntryList)

/-- The listing of a directory, each entry with its `read_dir` fault mode. -/
inductive EntryList where
  | nil
  | cons (fault : EntryFault) (node : FsNode) (rest : EntryList)
end

/-- The four shared counters of `struct Stats` (`AtomicU64` in the source;
here plain naturals, since all claims are about the final aggregates). -/
structure Stats where
  files_deleted : Nat
  dirs_deleted : Nat
  bytes_deleted : Nat
  errors : Nat
deriving DecidableEq

/-- `Stats::increment_files`. -/
def Stats.increment_files (s : Stats) : Stats :=
  { s with files_deleted := s.files_deleted + 1 }

/-- `Stats::increment_dirs`. -/
def Stats.increment_dirs (s : Stats) : Stats :=
  { s with dirs_deleted := s.dirs_deleted + 1 }

/-- `Stats::add_bytes`. -/
def Stats.add_bytes (s : Stats) (bytes : Nat) : Stats :=
  { s with bytes_deleted := s.bytes_deleted + bytes }

/-- `Stats::increment_errors`. -/
def Stats.increment_errors (s : Stats) : Stats :=
  { s with errors := s.errors + 1 }

/-- `Stats::default()`: all four counters start at zero. -/
def Stats.zero : Stats := ⟨0, 0, 0, 0⟩

mutual
/-- Structural size of a snapshot node, used as termination measure for the
recursive deletion functions (symlink targets are never recursed into by
them, so the target does not contribute). -/
def FsNode.weight : FsNode → Nat
  | .file _ _ _ => 1
  | .symlink _ _ _ => 1
  | .dir _ _ _ es => 1 + es.weight

/-- Structural size of a listing. -/
def EntryList.weight : EntryList → Nat
  | .nil => 0
  | .cons _ n rest => 1 + n.weight + rest.weight
end

/-- Total weight of a pending-directory stack. -/
def stackWeight : List FsNode → Nat
  | [] => 0
  | n :: rest => n.weight + stackWeight rest

/-- The shared error-absorbing closure body (src lines 52-55, 80-83,
189-192): an `Err` from `remove_path_recursive` is logged and converted
into one `increment_errors`; an `Ok` leaves the counters as produced. -/
def absorb_result (p : Stats × Except IOErr Unit) : Stats :=
  match p.2 with
  | .ok _ => p.1
  | .error _ => p.1.increment_errors

/-- `remove_file_with_stats` (src lines 217-225): best-effort
`symlink_metadata` read feeding `add_bytes` FIRST, then `fs::remove_file`,
then `increment_files` on success.  Never called on a plain directory by the
program (`remove_file` on one would fail), modelled by the error arm. -/
def remove_file_with_stats : FsNode → Stats → Stats × Except IOErr Unit
  | .file sz metaF rmF, s =>
      let s1 := if metaF then s else s.add_bytes sz
      if rmF then (s1, .error .other) else (s1.increment_files, .ok ())
  | .symlink sz _ rmF, s =>
      let s1 := s.add_bytes sz
      if rmF then (s1, .error .other) else (s1.increment_files, .ok ())
  | .dir _ _ _ _, s => (s, .error .other)

mutual
/-- `count_items_in_dir` (src lines 161-179): walk the subtree, incrementing
`dirs_deleted` per directory entry and `files_deleted` (plus best-effort
`add_bytes` of `entry.metadata().len()`) per non-directory entry.
`fs::read_dir` on a non-directory fails, hence the catch-all arm. -/
def count_items_in_dir : FsNode → Stats → Stats × Except IOErr Unit
  | .dir listF _ _ entries, s =>
      if listF then (s, .error .other) else count_entries entries s
  | _, s => (s, .error .other)
termination_by n _ => n.weight
decreasing_by
  all_goals simp [FsNode.weight, EntryList.weight]

/-- The `for entry in fs::read_dir(path)?` body of `count_items_in_dir`:
`if let Ok(entry)` skips unyielded entries, `entry.file_type()?` propagates
a file-type failure, directories recurse after `increment_dirs`. -/
def count_entries : EntryList → Stats → Stats × Except IOErr Unit
  | .nil, s => (s, .ok ())
  | .cons fault n rest, s =>
      match fault with
      | .iterErr => count_entries rest s
      | .typeErr => (s, .error .other)
      | .ok =>
          match n with
          | .dir lf rd ra es =>
              match count_items_in_dir (.dir lf rd ra es) s.increment_dirs with
              | (s1, .ok _) => count_entries rest s1
              | (s1, .error e) => (s1, .error e)
          | .file sz metaF _ =>
              let s1 := s.increment_files
              let s2 := if metaF then s1 else s1.add_bytes sz
              count_entries rest s2
          | .symlink sz _ _ =>
              count_entries rest ((s.increment_files).add_bytes sz)
termination_by es _ => es.weight
decreasing_by
  all_goals simp [FsNode.weight, EntryList.weight]
  all_goals omega
end

/-- `remove_dir_all_with_stats` (src lines 153-159): count first, then one
`fs::remove_dir_all(path)?` for the whole subtree. -/
def remove_dir_all_with_stats (n : FsNode) (s : Stats) : Stats × Except IOErr Unit :=
  match count_items_in_dir n s with
  | (s1, .error e) => (s1, .error e)
  | (s1, .ok _) =>
      match n with
      | .dir _ _ rmAllF _ => if rmAllF then (s1, .error .other) else (s1, .ok ())
      | _ => (s1, .error .other)

/-- `estimate_dir_size`'s nested loops (src lines 126-151), fused into one
function: the `EntryList` argument is the listing currently being scanned by
the inner `for` loop, the `List FsNode` argument is the explicit
`dirs_to_check` stack of the outer `while` (head = top, matching `Vec::pop`),
and the `Nat` is the running `count` with its `> 1000` early-exit checks.
Finishing or breaking out of the inner loop (`.nil`) returns to the outer
loop, which pops the next directory, re-checks the cap, and issues
`fs::read_dir(&dir)?`. -/
def estimate_go : EntryList → Nat → List FsNode → Except IOErr Nat
  | .nil, count, stack =>
      match stack with
      | [] => .ok count
      | d :: rest =>
          if count > 1000 then .ok count
          else
            match d with
            | .dir lf _ _ es => if lf then .error .other else estimate_go es count rest
            | _ => .error .other
  | .cons fault n rest, count, stack =>
      match fault with
      | .iterErr => estimate_go rest count stack
      | .typeErr =>
          if count + 1 > 1000 then estimate_go .nil (count + 1) stack
          else .error .other
      | .ok =>
          if count + 1 > 1000 then estimate_go .nil (count + 1) stack
          else
            match n with
            | .dir lf rd ra es => estimate_go rest (count + 1) (.dir lf rd ra es :: stack)
            | _ => estimate_go rest (count + 1) stack
termination_by es _ stack => es.weight + stackWeight stack
decreasing_by
  all_goals simp [FsNode.weight, EntryList.weight, stackWeight]
  all_goals omega

/-- `estimate_dir_size` (src lines 126-151): seed the stack with the root,
`count = 0`, and run the traversal. -/
def estimate_dir_size (n : FsNode) : Except IOErr Nat :=
  estimate_go .nil 0 [n]

mutual
/-- `hybrid_remove` (src lines 106-124): `symlink_metadata` classification
(the node exists, so the read succeeds; a symlink is never `is_dir` under
`symlink_metadata`), then small directories (estimate `< 100`) go through
`remove_dir_all_with_stats` and large ones through
`parallel_remove_large_dir`; non-directories go to `remove_file_with_stats`. -/
def hybrid_remove : FsNode → Stats → Stats × Except IOErr Unit
  | .dir lf rd ra es, s =>
      match estimate_dir_size (.dir lf rd ra es) with
      | .error e => (s, .error e)
      | .ok dirSize =>
          if dirSize < 100 then remove_dir_all_with_stats (.dir lf rd ra es) s
          else parallel_remove_large_dir (.dir lf rd ra es) s
  | n, s => remove_file_with_stats n s
termination_by n _ => 3 * n.weight + 1
decreasing_by
  all_goals simp [FsNode.weight, EntryList.weight]

/-- `parallel_remove_large_dir` (src lines 181-205): `fs::read_dir(path)?`
(a listing failure propagates), children collected via `filter_map(ok)` and
each sent through `remove_path_recursive` (errors absorbed into the counter),
then the final `fs::remove_dir`: `Ok` increments `dirs_deleted`, ANY `Err`
— `NotFound` included — increments `errors`; the function itself still
returns `Ok(())`. -/
def parallel_remove_large_dir : FsNode → Stats → Stats × Except IOErr Unit
  | .dir lf rd _ es, s =>
      if lf then (s, .error .other)
      else
        let s1 := remove_entries_par es s
        match rd with
        | .ok => (s1.increment_dirs, .ok ())
        | _ => (s1.increment_errors, .ok ())
  | _, s => (s, .error .other)
termination_by n _ => 3 * n.weight
decreasing_by
  all_goals simp [FsNode.weight, EntryList.weight]
  all_goals omega

/-- The `entries.par_iter().for_each` body of `parallel_remove_large_dir`:
every collected child runs `remove_path_recursive`; a child's `Err` is
logged and turned into one `increment_errors`. -/
def remove_entries_par : EntryList → Stats → Stats
  | .nil, s => s
  | .cons fault n rest, s =>
      match fault with
      | .iterErr => remove_entries_par rest s
      | _ => remove_entries_par rest (absorb_result (remove_path_recursive n s))
termination_by es _ => 3 * es.weight + 2
decreasing_by
  all_goals simp [FsNode.weight, EntryList.weight]
  all_goals omega

/-- `remove_path_recursive` (src lines 207-215): `fs::symlink_metadata(path)?`
then directories (and only genuine directories — a symlink is never
`is_dir` under `symlink_metadata`) go to `hybrid_remove`, everything else to
`remove_file_with_stats`. -/
def remove_path_recursive : FsNode → Stats → Stats × Except IOErr Unit
  | .dir lf rd ra es, s => hybrid_remove (.dir lf rd ra es) s
  | n, s => remove_file_with_stats n s
termination_by n _ => 3 * n.weight + 2
decreasing_by
  all_goals simp [FsNode.weight, EntryList.weight]
end

/-- `fs::symlink_metadata` on a root path: a missing path (`none`) reports
`NotFound`; an existing one proceeds into `remove_path_recursive`.  This is
exactly the first line of `remove_path_recursive` seen from the caller that
may hand it a non-existing path. -/
def remove_path_recursive_root : Option FsNode → Stats → Stats × Except IOErr Unit
  | none, s => (s, .error .notFound)
  | some n, s => remove_path_recursive n s

/-- The `par_iter().for_each` body of `parallel_remove_top_level` (src lines
51-56 and 79-84): run `remove_path_recursive` on one item, converting an
`Err` into a log line plus one `increment_errors`. -/
def handle_root_item (r : Option FsNode) (s : Stats) : Stats :=
  absorb_result (remove_path_recursive_root r s)

/-- `Path::is_dir()` — note it FOLLOWS symlinks, unlike `symlink_metadata`:
a symlink whose target is a directory satisfies it. -/
def path_is_dir : Option FsNode → Bool
  | some (.dir _ _ _ _) => true
  | some (.symlink _ (.toDir _ _) _) => true
  | _ => false

/-- `entries.flatten()` over a listing: unyielded entries are dropped, the
rest become work items (each certainly exists, hence `some`). -/
def entries_to_items : EntryList → List (Option FsNode)
  | .nil => []
  | .cons fault n rest =>
      match fault with
      | .iterErr => entries_to_items rest
      | _ => some n :: entries_to_items rest

/-- The flattening step of `parallel_remove_top_level` (src lines 61-76) for
one root: roots satisfying the link-following `Path::is_dir()` are listed by
the link-following `fs::read_dir` and replaced by their immediate children
(for a symlink root these are the TARGET directory's children); a listing
failure falls back to the root itself; non-directories pass through. -/
def flatten_root (r : Option FsNode) : List (Option FsNode) :=
  match r with
  | some (.dir lf rd ra es) =>
      if lf then [some (.dir lf rd ra es)] else entries_to_items es
  | some (.symlink sz (.toDir lf es) rmF) =>
      if lf then [some (.symlink sz (.toDir lf es) rmF)] else entries_to_items es
  | r => [r]

/-- The `for path in paths` loop building `all_items` (src lines 61-76). -/
def flatten_roots : List (Option FsNode) → List (Option FsNode)
  | [] => []
  | r :: rest => flatten_root r ++ flatten_roots rest

/-- The cleanup loop of `parallel_remove_top_level` (src lines 87-98), for
one original root, run after the flattened items were processed: roots that
still satisfy `is_dir()` get one `fs::remove_dir`; success increments
`dirs_deleted`, a `NotFound` failure is silently ignored (the one place the
source inspects the error kind), any other failure increments `errors`.
A symlink-to-directory root still satisfies `is_dir()` and `fs::remove_dir`
on a symlink fails with a non-`NotFound` error; a missing root or an
already-removed file root fails the `is_dir()` test and is skipped. -/
def cleanup_root (s : Stats) (r : Option FsNode) : Stats :=
  match r with
  | some (.dir _ rmDir _ _) =>
      match rmDir with
      | .ok => s.increment_dirs
      | .notFound => s
      | .otherErr => s.increment_errors
  | some (.symlink _ (.toDir _ _) _) => s.increment_errors
  | _ => s

/-- `parallel_remove_top_level` (src lines 46-103): fresh `Stats::default()`;
with at least as many roots as threads, process each root directly;
otherwise flatten the first level, process all items, then clean up the
original root directories.  Both branches end in `Ok(())`. -/
def parallel_remove_top_level (paths : List (Option FsNode)) (num_threads : Nat) :
    Stats × Except IOErr Unit :=
  if paths.length ≥ num_threads then
    (paths.foldl (fun s p => handle_root_item p s) Stats.zero, .ok ())
  else
    let all_items := flatten_roots paths
    let s1 := all_items.foldl (fun s p => handle_root_item p s) Stats.zero
    (paths.foldl cleanup_root s1, .ok ())

/-! Unfolding equations for the well-founded definitions, in the rewrite
shapes the proofs below use. -/

theorem absorb_result_ok (s : Stats) (u : Unit) : absorb_result (s, .ok u) = s := rfl

theorem absorb_result_error (s : Stats) (e : IOErr) :
    absorb_result (s, .error e) = s.increment_errors := rfl

theorem estimate_go_nil_nil (c : Nat) : estimate_go .nil c [] = .ok c := by
  rw [estimate_go]

theorem estimate_go_nil_cons_dir (c : Nat) (lf : Bool) (rd : RmOutcome) (ra : Bool)
    (es : EntryList) (rest : List FsNode) :
    estimate_go .nil c (.dir lf rd ra es :: rest)
      = if c > 1000 then .ok c else if lf then .error .other else estimate_go es c rest := by
  rw [estimate_go]

theorem estimate_go_nil_cons_file (c sz : Nat) (mf rf : Bool) (rest : List FsNode) :
    estimate_go .nil c (.file sz mf rf :: rest)
      = if c > 1000 then .ok c else .error .other := by
  rw [estimate_go]
  intro _ _ _ _ h
  cases h

theorem estimate_go_nil_cons_symlink (c sz : Nat) (t : LinkTarget) (rf : Bool)
    (rest : List FsNode) :
    estimate_go .nil c (.symlink sz t rf :: rest)
      = if c > 1000 then .ok c else .error .other := by
  rw [estimate_go]
  intro _ _ _ _ h
  cases h

theorem estimate_go_cons_iterErr (n : FsNode) (rest : EntryList) (c : Nat) (st : List FsNode) :
    estimate_go (.cons .iterErr n rest) c st = estimate_go rest c st := by
  rw [estimate_go]

theorem estimate_go_cons_typeErr (n : FsNode) (rest : EntryList) (c : Nat) (st : List FsNode) :
    estimate_go (.cons .typeErr n rest) c st
      = if c + 1 > 1000 then estimate_go .nil (c + 1) st else .error .other := by
  rw [estimate_go]

theorem estimate_go_cons_ok_dir (lf : Bool) (rd : RmOutcome) (ra : Bool) (es : EntryList)
    (rest : EntryList) (c : Nat) (st : List FsNode) :
    estimate_go (.cons .ok (.dir lf rd ra es) rest) c st
      = if c + 1 > 1000 then estimate_go .nil (c + 1) st
        else estimate_go rest (c + 1) (.dir lf rd ra es :: st) := by
  rw [estimate_go]

theorem estimate_go_cons_ok_file (sz : Nat) (mf rf : Bool) (rest : EntryList) (c : Nat)
    (st : List FsNode) :
    estimate_go (.cons .ok (.file sz mf rf) rest) c st
      = if c + 1 > 1000 then estimate_go .nil (c + 1) st else estimate_go rest (c + 1) st := by
  rw [estimate_go]
  intro _ _ _ _ h
  cases h

theorem estimate_go_cons_ok_symlink (sz : Nat) (t : LinkTarget) (rf : Bool) (rest : EntryList)
    (c : Nat) (st : List FsNode) :
    estimate_go (.cons .ok (.symlink sz t rf) rest) c st
      = if c + 1 > 1000 then estimate_go .nil (c + 1) st else estimate_go rest (c + 1) st := by
  rw [estimate_go]
  intro _ _ _ _ h
  cases h

theorem count_items_in_dir_dir (lf : Bool) (rd : RmOutcome) (ra : Bool) (es : EntryList)
    (s : Stats) :
    count_items_in_dir (.dir lf rd ra es) s
      = if lf then (s, .error .other) else count_entries es s := by
  rw [count_items_in_dir]

theorem count_entries_nil (s : Stats) : count_entries .nil s = (s, .ok ()) := by
  rw [count_entries]

theorem count_entries_iterErr (n : FsNode) (rest : EntryList) (s : Stats) :
    count_entries (.cons .iterErr n rest) s = count_entries rest s := by
  rw [count_entries]

theorem count_entries_typeErr (n : FsNode) (rest : EntryList) (s : Stats) :
    count_entries (.cons .typeErr n rest) s = (s, .error .other) := by
  rw [count_entries]

theorem count_entries_ok_dir (lf : Bool) (rd : RmOutcome) (ra : Bool) (es : EntryList)
    (rest : EntryList) (s : Stats) :
    count_entries (.cons .ok (.dir lf rd ra es) rest) s
      = match count_items_in_dir (.dir lf rd ra es) s.increment_dirs with
        | (s1, .ok _) => count_entries rest s1
        | (s1, .error e) => (s1, .error e) := by
  rw [count_entries]

theorem count_entries_ok_file (sz : Nat) (mf rf : Bool) (rest : EntryList) (s : Stats) :
    count_entries (.cons .ok (.file sz mf rf) rest) s
      = count_entries rest
          (if mf then s.increment_files else (s.increment_files).add_bytes sz) := by
  rw [count_entries]

theorem count_entries_ok_symlink (sz : Nat) (t : LinkTarget) (rf : Bool) (rest : EntryList)
    (s : Stats) :
    count_entries (.cons .ok (.symlink sz t rf) rest) s
      = count_entries rest ((s.increment_files).add_bytes sz) := by
  rw [count_entries]

theorem remove_path_recursive_dir (lf : Bool) (rd : RmOutcome) (ra : Bool) (es : EntryList)
    (s : Stats) :
    remove_path_recursive (.dir lf rd ra es) s = hybrid_remove (.dir lf rd ra es) s := by
  rw [remove_path_recursive]

theorem remove_path_recursive_file (sz : Nat) (mf rf : Bool) (s : Stats) :
    remove_path_recursive (.file sz mf rf) s = remove_file_with_stats (.file sz mf rf) s := by
  rw [remove_path_recursive]
  intro _ _ _ _ h
  cases h

theorem remove_path_recursive_symlink (sz : Nat) (t : LinkTarget) (rf : Bool) (s : Stats) :
    remove_path_recursive (.symlink sz t rf) s
      = remove_file_with_stats (.symlink sz t rf) s := by
  rw [remove_path_recursive]
  intro _ _ _ _ h
  cases h

theorem hybrid_remove_dir (lf : Bool) (rd : RmOutcome) (ra : Bool) (es : EntryList) (s : Stats) :
    hybrid_remove (.dir lf rd ra es) s
      = match estimate_dir_size (.dir lf rd ra es) with
        | .error e => (s, .error e)
        | .ok dirSize =>
            if dirSize < 100 then remove_dir_all_with_stats (.dir lf rd ra es) s
            else parallel_remove_large_dir (.dir lf rd ra es) s := by
  rw [hybrid_remove]

theorem hybrid_remove_dir_ok (lf : Bool) (rd : RmOutcome) (ra : Bool) (es : EntryList)
    (s : Stats) (k : Nat) (h : estimate_dir_size (.dir lf rd ra es) = .ok k) :
    hybrid_remove (.dir lf rd ra es) s
      = if k < 100 then remove_dir_all_with_stats (.dir lf rd ra es) s
        else parallel_remove_large_dir (.dir lf rd ra es) s := by
  rw [hybrid_remove_dir, h]

theorem hybrid_remove_dir_err (lf : Bool) (rd : RmOutcome) (ra : Bool) (es : EntryList)
    (s : Stats) (e : IOErr) (h : estimate_dir_size (.dir lf rd ra es) = .error e) :
    hybrid_remove (.dir lf rd ra es) s = (s, .error e) := by
  rw [hybrid_remove_dir, h]

theorem parallel_remove_large_dir_dir (lf : Bool) (rd : RmOutcome) (ra : Bool) (es : EntryList)
    (s : Stats) :
    parallel_remove_large_dir (.dir lf rd ra es) s
      = if lf then (s, .error .other)
        else (if rd = RmOutcome.ok then (remove_entries_par es s).increment_dirs
              else (remove_entries_par es s).increment_errors, .ok ()) := by
  rw [parallel_remove_large_dir]
  cases rd <;> simp

theorem remove_entries_par_nil (s : Stats) : remove_entries_par .nil s = s := by
  rw [remove_entries_par]

theorem remove_entries_par_iterErr (n : FsNode) (rest : EntryList) (s : Stats) :
    remove_entries_par (.cons .iterErr n rest) s = remove_entries_par rest s := by
  rw [remove_entries_par]

theorem remove_entries_par_ok (n : FsNode) (rest : EntryList) (s : Stats) :
    remove_entries_par (.cons .ok n rest) s
      = remove_entries_par rest (absorb_result (remove_path_recursive n s)) := by
  rw [remove_entries_par]
  intro h
  cases h

theorem remove_entries_par_typeErr (n : FsNode) (rest : EntryList) (s : Stats) :
    remove_entries_par (.cons .typeErr n rest) s
      = remove_entries_par rest (absorb_result (remove_path_recursive n s)) := by
  rw [remove_entries_par]
  intro h
  cases h

/-! Specification-level measures of a snapshot: the exact number of
non-directory entries, of directory entries, and the total file sizes of a
tree, as §8 of the specification speaks of them. -/

mutual
/-- Number of non-directory entries a deletion of this node is expected to
count: `1` for a file or symlink, and the number of non-directory entries
anywhere strictly inside for a directory. -/
def FsNode.nodeFiles : FsNode → Nat
  | .dir _ _ _ es => EntryList.fileCount es
  | _ => 1

/-- Number of non-directory entries anywhere under a listing. -/
def EntryList.fileCount : EntryList → Nat
  | .nil => 0
  | .cons _ n rest => FsNode.nodeFiles n + EntryList.fileCount rest
end

mutual
/-- Total bytes a deletion of this node is expected to report: the reported
size of a file or symlink, the sum over all files strictly inside for a
directory. -/
def FsNode.nodeBytes : FsNode → Nat
  | .dir _ _ _ es => EntryList.byteSum es
  | .file sz _ _ => sz
  | .symlink sz _ _ => sz

/-- Total reported sizes of the non-directory entries under a listing. -/
def EntryList.byteSum : EntryList → Nat
  | .nil => 0
  | .cons _ n rest => FsNode.nodeBytes n + EntryList.byteSum rest
end

/-- Number of directory entries anywhere under a listing (each directory
entry counts itself plus the directories inside it).  For a tree `T`, the
claims' "number of directory entries in T" is this measure of `T`'s
listing: the root of `T` is not an entry of `T`. -/
def EntryList.dirEntries : EntryList → Nat
  | .nil => 0
  | .cons _ (.dir _ _ _ es) rest => 1 + EntryList.dirEntries es + EntryList.dirEntries rest
  | .cons _ _ rest => EntryList.dirEntries rest

/-- Directory entries strictly inside a node. -/
def FsNode.insideDirs : FsNode → Nat
  | .dir _ _ _ es => EntryList.dirEntries es
  | _ => 0

mutual
/-- A snapshot on which every syscall the program can issue succeeds: no
metadata, listing, or removal faults anywhere, every entry yielded with a
readable file type.  This is the "successful run over a static tree" regime
of the specification's §8 properties. -/
def FsNode.clean : FsNode → Bool
  | .file _ mf rf => !mf && !rf
  | .symlink _ _ rf => !rf
  | .dir lf rd ra es =>
      !lf && !ra && (match rd with | .ok => true | _ => false) && EntryList.clean es

/-- Cleanliness of a listing: every entry yielded, typed, and clean. -/
def EntryList.clean : EntryList → Bool
  | .nil => true
  | .cons f n rest =>
      (match f with | .ok => true | _ => false) && FsNode.clean n && EntryList.clean rest
end


/-- Once the running count has passed the cap, the traversal returns it
immediately, whatever is still on the stack. -/
theorem estimate_go_break (c : Nat) (st : List FsNode) (h : c > 1000) :
    estimate_go .nil c st = .ok c := by
  cases st with
  | nil => rw [estimate_go_nil_nil]
  | cons d rest =>
      cases d with
      | file sz mf rf => rw [estimate_go_nil_cons_file, if_pos h]
      | symlink sz t rf => rw [estimate_go_nil_cons_symlink, if_pos h]
      | dir lf rd ra es => rw [estimate_go_nil_cons_dir, if_pos h]

/-- The probe's running count never exceeds 1001. -/
theorem estimate_go_le (N : Nat) : ∀ (es : EntryList) (c : Nat) (st : List FsNode),
    es.weight + stackWeight st ≤ N → c ≤ 1000 →
    ∀ k, estimate_go es c st = .ok k → k ≤ 1001 := by
  induction N using Nat.strong_induction_on with
  | _ N ih =>
    intro es c st hm hc k hk
    cases es with
    | nil =>
        cases st with
        | nil =>
            rw [estimate_go_nil_nil] at hk
            injection hk with h
            omega
        | cons d rest =>
            cases d with
            | dir lf rd ra des =>
                rw [estimate_go_nil_cons_dir, if_neg (by omega)] at hk
                by_cases hlf : lf = true
                · rw [if_pos hlf] at hk; cases hk
                · rw [if_neg hlf] at hk
                  simp only [EntryList.weight, stackWeight, FsNode.weight] at hm
                  exact ih (des.weight + stackWeight rest) (by omega) des c rest (by omega) hc k hk
            | file sz mf rf =>
                rw [estimate_go_nil_cons_file, if_neg (by omega)] at hk; cases hk
            | symlink sz t rf =>
                rw [estimate_go_nil_cons_symlink, if_neg (by omega)] at hk; cases hk
    | cons fault n rest =>
        simp only [EntryList.weight] at hm
        cases fault with
        | iterErr =>
            rw [estimate_go_cons_iterErr] at hk
            exact ih (rest.weight + stackWeight st) (by omega) rest c st (by omega) hc k hk
        | typeErr =>
            rw [estimate_go_cons_typeErr] at hk
            by_cases hcap : c + 1 > 1000
            · rw [if_pos hcap, estimate_go_break _ _ hcap] at hk
              injection hk with h
              omega
            · rw [if_neg hcap] at hk; cases hk
        | ok =>
            cases n with
            | dir lf rd ra des =>
                rw [estimate_go_cons_ok_dir] at hk
                by_cases hcap : c + 1 > 1000
                · rw [if_pos hcap, estimate_go_break _ _ hcap] at hk
                  injection hk with h
                  omega
                · rw [if_neg hcap] at hk
                  simp only [FsNode.weight] at hm
                  refine ih (rest.weight + stackWeight (.dir lf rd ra des :: st)) ?_ rest (c + 1) _ ?_ (by omega) k hk
                  · simp only [stackWeight, FsNode.weight]
                    omega
                  · simp only [stackWeight, FsNode.weight]
                    omega
            | file sz mf rf =>
                rw [estimate_go_cons_ok_file] at hk
                by_cases hcap : c + 1 > 1000
                · rw [if_pos hcap, estimate_go_break _ _ hcap] at hk
                  injection hk with h
                  omega
                · rw [if_neg hcap] at hk
                  exact ih (rest.weight + stackWeight st) (by omega) rest (c + 1) st (by omega) (by omega) k hk
            | symlink sz t rf =>
                rw [estimate_go_cons_ok_symlink] at hk
                by_cases hcap : c + 1 > 1000
                · rw [if_pos hcap, estimate_go_break _ _ hcap] at hk
                  injection hk with h
                  omega
                · rw [if_neg hcap] at hk
                  exact ih (rest.weight + stackWeight st) (by omega) rest (c + 1) st (by omega) (by omega) k hk

/-- The size estimate a successful probe returns is at most 1001. -/
theorem estimate_dir_size_le (n : FsNode) (k : Nat) (h : estimate_dir_size n = .ok k) :
    k ≤ 1001 := by
  rw [estimate_dir_size] at h
  exact estimate_go_le (EntryList.nil.weight + stackWeight [n]) .nil 0 [n] le_rfl (by omega) k h


theorem clean_dir_iff (lf : Bool) (rd : RmOutcome) (ra : Bool) (es : EntryList) :
    FsNode.clean (.dir lf rd ra es) = true
      ↔ lf = false ∧ rd = RmOutcome.ok ∧ ra = false ∧ EntryList.clean es = true := by
  cases lf <;> cases ra <;> cases rd <;> simp [FsNode.clean]

theorem clean_cons_iff (f : EntryFault) (n : FsNode) (rest : EntryList) :
    EntryList.clean (.cons f n rest) = true
      ↔ f = EntryFault.ok ∧ FsNode.clean n = true ∧ EntryList.clean rest = true := by
  cases f <;> simp [EntryList.clean]

theorem clean_file_iff (sz : Nat) (mf rf : Bool) :
    FsNode.clean (.file sz mf rf) = true ↔ mf = false ∧ rf = false := by
  cases mf <;> cases rf <;> simp [FsNode.clean]

theorem clean_symlink_iff (sz : Nat) (t : LinkTarget) (rf : Bool) :
    FsNode.clean (.symlink sz t rf) = true ↔ rf = false := by
  cases rf <;> simp [FsNode.clean]

/-- A probe stack on which every pending entry is a fault-free directory. -/
def stackCleanDirs : List FsNode → Bool
  | [] => true
  | .dir lf rd ra es :: rest => FsNode.clean (.dir lf rd ra es) && stackCleanDirs rest
  | .file _ _ _ :: _ => false
  | .symlink _ _ _ :: _ => false

/-- On a fault-free tree the size probe always succeeds. -/
theorem estimate_go_clean_ok (N : Nat) : ∀ (es : EntryList) (c : Nat) (st : List FsNode),
    es.weight + stackWeight st ≤ N → EntryList.clean es = true → stackCleanDirs st = true →
    ∃ k, estimate_go es c st = .ok k := by
  induction N using Nat.strong_induction_on with
  | _ N ih =>
    intro es c st hm hes hst
    cases es with
    | nil =>
        cases st with
        | nil => exact ⟨c, estimate_go_nil_nil c⟩
        | cons d rest =>
            cases d with
            | dir lf rd ra des =>
                rw [stackCleanDirs, Bool.and_eq_true] at hst
                obtain ⟨hlf, hrd, hra, hdes⟩ := (clean_dir_iff lf rd ra des).mp hst.1
                subst hlf
                by_cases hcap : c > 1000
                · exact ⟨c, by rw [estimate_go_nil_cons_dir, if_pos hcap]⟩
                · simp only [EntryList.weight, stackWeight, FsNode.weight] at hm
                  obtain ⟨k, hk⟩ := ih (des.weight + stackWeight rest) (by omega) des c rest
                    (by omega) hdes hst.2
                  exact ⟨k, by rw [estimate_go_nil_cons_dir, if_neg hcap, if_neg (by simp)]; exact hk⟩
            | file sz mf rf => rw [stackCleanDirs] at hst; cases hst
            | symlink sz t rf => rw [stackCleanDirs] at hst; cases hst

    | cons fault n rest =>
        obtain ⟨hf, hn, hrest⟩ := (clean_cons_iff fault n rest).mp hes
        subst hf
        simp only [EntryList.weight] at hm
        by_cases hcap : c + 1 > 1000
        · refine ⟨c + 1, ?_⟩
          cases n with
          | dir lf rd ra des => rw [estimate_go_cons_ok_dir, if_pos hcap, estimate_go_break _ _ hcap]
          | file sz mf rf => rw [estimate_go_cons_ok_file, if_pos hcap, estimate_go_break _ _ hcap]
          | symlink sz t rf =>
              rw [estimate_go_cons_ok_symlink, if_pos hcap, estimate_go_break _ _ hcap]
        · cases n with
          | dir lf rd ra des =>
              simp only [FsNode.weight] at hm
              obtain ⟨k, hk⟩ := ih (rest.weight + stackWeight (.dir lf rd ra des :: st))
                (by simp only [stackWeight, FsNode.weight]; omega) rest (c + 1)
                (.dir lf rd ra des :: st)
                (by simp only [stackWeight, FsNode.weight]; omega) hrest
                (by rw [stackCleanDirs, Bool.and_eq_true]; exact ⟨hn, hst⟩)
              exact ⟨k, by rw [estimate_go_cons_ok_dir, if_neg hcap]; exact hk⟩
          | file sz mf rf =>
              obtain ⟨k, hk⟩ := ih (rest.weight + stackWeight st) (by omega) rest (c + 1) st
                (by omega) hrest hst
              exact ⟨k, by rw [estimate_go_cons_ok_file, if_neg hcap]; exact hk⟩
          | symlink sz t rf =>
              obtain ⟨k, hk⟩ := ih (rest.weight + stackWeight st) (by omega) rest (c + 1) st
                (by omega) hrest hst
              exact ⟨k, by rw [estimate_go_cons_ok_symlink, if_neg hcap]; exact hk⟩

/-- On a fault-free directory the size estimate succeeds. -/
theorem estimate_dir_size_clean_ok (lf : Bool) (rd : RmOutcome) (ra : Bool) (es : EntryList)
    (h : FsNode.clean (.dir lf rd ra es) = true) :
    ∃ k, estimate_dir_size (.dir lf rd ra es) = .ok k := by
  rw [estimate_dir_size]
  refine estimate_go_clean_ok (EntryList.nil.weight + stackWeight [.dir lf rd ra es]) .nil 0 _
    le_rfl rfl ?_
  rw [stackCleanDirs, Bool.and_eq_true]
  exact ⟨h, rfl⟩


mutual
/-- Modelled from the spec (§8: "regardless of whether T was routed through
BulkRemover, FanOutRemover, or a mix at different depths"): the deletion
engine with the estimate-based Small/Large decision of `hybrid_remove`
abstracted into an arbitrary classifier `cl`.  `cl d = true` sends
directory `d` through the bulk `remove_dir_all_with_stats` path, `cl d =
false` through the fan-out path; everything else is verbatim
`remove_path_recursive`/`parallel_remove_large_dir`.  Instantiating `cl`
with the estimate-based `smallDir` recovers the source behaviour on
fault-free trees (`remove_path_recursive_eq_classifier`). -/
def removeWithClassifier (cl : FsNode → Bool) : FsNode → Stats → Stats × Except IOErr Unit
  | .dir lf rd ra es, s =>
      if cl (.dir lf rd ra es) then remove_dir_all_with_stats (.dir lf rd ra es) s
      else if lf then (s, .error .other)
      else (if rd = RmOutcome.ok then (removeEntriesWithClassifier cl es s).increment_dirs
            else (removeEntriesWithClassifier cl es s).increment_errors, .ok ())
  | n, s => remove_file_with_stats n s

/-- The fan-out loop of `removeWithClassifier`, mirroring
`remove_entries_par`. -/
def removeEntriesWithClassifier (cl : FsNode → Bool) : EntryList → Stats → Stats
  | .nil, s => s
  | .cons fault n rest, s =>
      match fault with
      | .iterErr => removeEntriesWithClassifier cl rest s
      | _ => removeEntriesWithClassifier cl rest (absorb_result (removeWithClassifier cl n s))
end

/-- The classifier the source actually uses: a directory is Small when the
(successful) estimate is below 100 (`hybrid_remove`, src line 117). -/
def smallDir (n : FsNode) : Bool :=
  match estimate_dir_size n with
  | .ok k => decide (k < 100)
  | .error _ => false

mutual
/-- The number of `increment_dirs` calls a run of `removeWithClassifier cl`
performs on a fault-free node: a bulk-routed directory contributes only the
directory entries strictly inside it (its own root is never counted), a
fan-out-routed directory contributes one for itself plus its children's
contributions. -/
def classifierDirCount (cl : FsNode → Bool) : FsNode → Nat
  | .dir lf rd ra es =>
      if cl (.dir lf rd ra es) then EntryList.dirEntries es
      else 1 + classifierDirCountEntries cl es
  | _ => 0

/-- Sum of `classifierDirCount` over a listing. -/
def classifierDirCountEntries (cl : FsNode → Bool) : EntryList → Nat
  | .nil => 0
  | .cons _ n rest => classifierDirCount cl n + classifierDirCountEntries cl rest
end

theorem removeWithClassifier_dir (cl : FsNode → Bool) (lf : Bool) (rd : RmOutcome) (ra : Bool)
    (es : EntryList) (s : Stats) :
    removeWithClassifier cl (.dir lf rd ra es) s
      = if cl (.dir lf rd ra es) then remove_dir_all_with_stats (.dir lf rd ra es) s
        else if lf then (s, .error .other)
        else (if rd = RmOutcome.ok then (removeEntriesWithClassifier cl es s).increment_dirs
              else (removeEntriesWithClassifier cl es s).increment_errors, .ok ()) := by
  rw [removeWithClassifier]

theorem removeWithClassifier_file (cl : FsNode → Bool) (sz : Nat) (mf rf : Bool) (s : Stats) :
    removeWithClassifier cl (.file sz mf rf) s = remove_file_with_stats (.file sz mf rf) s := by
  rw [removeWithClassifier]
  intro _ _ _ _ h
  cases h

theorem removeWithClassifier_symlink (cl : FsNode → Bool) (sz : Nat) (t : LinkTarget)
    (rf : Bool) (s : Stats) :
    removeWithClassifier cl (.symlink sz t rf) s
      = remove_file_with_stats (.symlink sz t rf) s := by
  rw [removeWithClassifier]
  intro _ _ _ _ h
  cases h

theorem removeEntriesWithClassifier_nil (cl : FsNode → Bool) (s : Stats) :
    removeEntriesWithClassifier cl .nil s = s := by
  rw [removeEntriesWithClassifier]

theorem removeEntriesWithClassifier_iterErr (cl : FsNode → Bool) (n : FsNode) (rest : EntryList)
    (s : Stats) :
    removeEntriesWithClassifier cl (.cons .iterErr n rest) s
      = removeEntriesWithClassifier cl rest s := by
  rw [removeEntriesWithClassifier]

theorem removeEntriesWithClassifier_ok (cl : FsNode → Bool) (n : FsNode) (rest : EntryList)
    (s : Stats) :
    removeEntriesWithClassifier cl (.cons .ok n rest) s
      = removeEntriesWithClassifier cl rest (absorb_result (removeWithClassifier cl n s)) := by
  rw [removeEntriesWithClassifier]
  intro h
  cases h


/-- Exact statistics of the counting walk on a fault-free listing. -/
theorem count_entries_clean (N : Nat) : ∀ (es : EntryList) (s : Stats),
    es.weight ≤ N → es.clean = true →
    count_entries es s
      = ({ files_deleted := s.files_deleted + es.fileCount,
           dirs_deleted := s.dirs_deleted + es.dirEntries,
           bytes_deleted := s.bytes_deleted + es.byteSum,
           errors := s.errors }, .ok ()) := by
  induction N using Nat.strong_induction_on with
  | _ N ih =>
    intro es s hm hes
    cases es with
    | nil =>
        rw [count_entries_nil]
        simp [EntryList.fileCount, EntryList.dirEntries, EntryList.byteSum]
    | cons fault n rest =>
        obtain ⟨hf, hn, hrest⟩ := (clean_cons_iff fault n rest).mp hes
        subst hf
        simp only [EntryList.weight] at hm
        cases n with
        | dir lf rd ra des =>
            obtain ⟨hlf, hrd, hra, hdes⟩ := (clean_dir_iff lf rd ra des).mp hn
            subst hlf
            rw [count_entries_ok_dir, count_items_in_dir_dir, if_neg (by simp)]
            simp only [ih des.weight (by simp only [FsNode.weight] at hm; omega) des
              s.increment_dirs le_rfl hdes]
            rw [ih rest.weight (by simp only [FsNode.weight] at hm; omega) rest _ le_rfl hrest]
            simp only [EntryList.fileCount, EntryList.dirEntries, EntryList.byteSum,
              FsNode.nodeFiles, FsNode.nodeBytes, Stats.increment_dirs,
              Prod.mk.injEq, Stats.mk.injEq, and_true, true_and]
            omega
        | file sz mf rf =>
            obtain ⟨hmf, hrf⟩ := (clean_file_iff sz mf rf).mp hn
            subst hmf
            rw [count_entries_ok_file, if_neg (by simp)]
            rw [ih rest.weight (by simp only [FsNode.weight] at hm; omega) rest _ le_rfl hrest]
            simp only [EntryList.fileCount, EntryList.dirEntries, EntryList.byteSum,
              FsNode.nodeFiles, FsNode.nodeBytes, Stats.increment_files, Stats.add_bytes,
              Prod.mk.injEq, Stats.mk.injEq, and_true, true_and]
            omega
        | symlink sz t rf =>
            rw [count_entries_ok_symlink]
            rw [ih rest.weight (by simp only [FsNode.weight] at hm; omega) rest _ le_rfl hrest]
            simp only [EntryList.fileCount, EntryList.dirEntries, EntryList.byteSum,
              FsNode.nodeFiles, FsNode.nodeBytes, Stats.increment_files, Stats.add_bytes,
              Prod.mk.injEq, Stats.mk.injEq, and_true, true_and]
            omega


/-- Exact statistics of `count_items_in_dir` on a fault-free directory. -/
theorem count_items_in_dir_clean (lf : Bool) (rd : RmOutcome) (ra : Bool) (es : EntryList)
    (s : Stats) (h : FsNode.clean (.dir lf rd ra es) = true) :
    count_items_in_dir (.dir lf rd ra es) s
      = ({ files_deleted := s.files_deleted + es.fileCount,
           dirs_deleted := s.dirs_deleted + es.dirEntries,
           bytes_deleted := s.bytes_deleted + es.byteSum,
           errors := s.errors }, .ok ()) := by
  obtain ⟨hlf, hrd, hra, hes⟩ := (clean_dir_iff lf rd ra es).mp h
  subst hlf
  rw [count_items_in_dir_dir, if_neg (by simp)]
  exact count_entries_clean es.weight es s le_rfl hes

/-- Exact statistics of the bulk path on a fault-free directory. -/
theorem remove_dir_all_with_stats_clean (lf : Bool) (rd : RmOutcome) (ra : Bool)
    (es : EntryList) (s : Stats) (h : FsNode.clean (.dir lf rd ra es) = true) :
    remove_dir_all_with_stats (.dir lf rd ra es) s
      = ({ files_deleted := s.files_deleted + es.fileCount,
           dirs_deleted := s.dirs_deleted + es.dirEntries,
           bytes_deleted := s.bytes_deleted + es.byteSum,
           errors := s.errors }, .ok ()) := by
  obtain ⟨hlf, hrd, hra, hes⟩ := (clean_dir_iff lf rd ra es).mp h
  subst hlf; subst hra
  rw [remove_dir_all_with_stats, count_items_in_dir_clean false rd false es s h]
  simp

/-- Exact statistics of the classifier-parametrised engine on a fault-free
snapshot: `files_deleted` grows by exactly the number of non-directory
entries and `bytes_deleted` by exactly their total size, independently of
the classifier; `dirs_deleted` grows by `classifierDirCount cl`; `errors`
is untouched and the run reports success. -/
theorem removeWithClassifier_spec (N : Nat) : ∀ (cl : FsNode → Bool),
    (∀ (n : FsNode) (s : Stats), n.weight ≤ N → n.clean = true →
      removeWithClassifier cl n s
        = ({ files_deleted := s.files_deleted + n.nodeFiles,
             dirs_deleted := s.dirs_deleted + classifierDirCount cl n,
             bytes_deleted := s.bytes_deleted + n.nodeBytes,
             errors := s.errors }, .ok ()))
    ∧ (∀ (es : EntryList) (s : Stats), es.weight ≤ N → es.clean = true →
      removeEntriesWithClassifier cl es s
        = { files_deleted := s.files_deleted + es.fileCount,
            dirs_deleted := s.dirs_deleted + classifierDirCountEntries cl es,
            bytes_deleted := s.bytes_deleted + es.byteSum,
            errors := s.errors }) := by
  induction N using Nat.strong_induction_on with
  | _ N ih =>
    intro cl
    constructor
    · intro n s hm hn
      cases n with
      | dir lf rd ra es =>
          obtain ⟨hlf, hrd, hra, hes⟩ := (clean_dir_iff lf rd ra es).mp hn
          subst hlf; subst hrd; subst hra
          rw [removeWithClassifier_dir]
          by_cases hcl : cl (.dir false .ok false es) = true
          · rw [if_pos hcl, remove_dir_all_with_stats_clean false .ok false es s hn]
            simp only [classifierDirCount, if_pos hcl, FsNode.nodeFiles, FsNode.nodeBytes]
          · rw [if_neg hcl, if_neg (by simp)]
            simp only [FsNode.weight] at hm
            rw [(ih es.weight (by omega) cl).2 es s le_rfl hes]
            simp only [classifierDirCount, if_neg hcl, FsNode.nodeFiles, FsNode.nodeBytes,
              Stats.increment_dirs, if_true, Prod.mk.injEq, Stats.mk.injEq, and_true,
              true_and]
            omega
      | file sz mf rf =>
          obtain ⟨hmf, hrf⟩ := (clean_file_iff sz mf rf).mp hn
          subst hmf; subst hrf
          rw [removeWithClassifier_file, remove_file_with_stats]
          simp only [Bool.false_eq_true, if_false, Stats.add_bytes, Stats.increment_files,
            classifierDirCount, FsNode.nodeFiles, FsNode.nodeBytes, Prod.mk.injEq,
            Stats.mk.injEq, and_true, true_and]
          omega
      | symlink sz t rf =>
          have hrf := (clean_symlink_iff sz t rf).mp hn
          subst hrf
          rw [removeWithClassifier_symlink, remove_file_with_stats]
          simp only [Bool.false_eq_true, if_false, Stats.add_bytes, Stats.increment_files,
            classifierDirCount, FsNode.nodeFiles, FsNode.nodeBytes, Prod.mk.injEq,
            Stats.mk.injEq, and_true, true_and]
          omega
    · intro es s hm hes
      cases es with
      | nil =>
          rw [removeEntriesWithClassifier_nil]
          simp [EntryList.fileCount, classifierDirCountEntries, EntryList.byteSum]
      | cons fault n rest =>
          obtain ⟨hf, hn, hrest⟩ := (clean_cons_iff fault n rest).mp hes
          subst hf
          simp only [EntryList.weight] at hm
          rw [removeEntriesWithClassifier_ok]
          have hn2 : n.weight < N := by omega
          have hrest2 : rest.weight < N := by omega
          rw [(ih n.weight hn2 cl).1 n s le_rfl hn, absorb_result_ok]
          rw [(ih rest.weight hrest2 cl).2 rest _ le_rfl hrest]
          simp only [EntryList.fileCount, classifierDirCountEntries, EntryList.byteSum,
            Stats.mk.injEq, and_true]
          omega

end Rmrs

namespace Rmrs

/-- On fault-free snapshots the source engine IS the classifier-parametrised
engine instantiated with the estimate-based `smallDir` classifier. -/
theorem rpr_eq_classifier (N : Nat) :
    (∀ (n : FsNode) (s : Stats), n.weight ≤ N → n.clean = true →
      remove_path_recursive n s = removeWithClassifier smallDir n s)
    ∧ (∀ (es : EntryList) (s : Stats), es.weight ≤ N → es.clean = true →
      remove_entries_par es s = removeEntriesWithClassifier smallDir es s) := by
  induction N using Nat.strong_induction_on with
  | _ N ih =>
    constructor
    · intro n s hm hn
      cases n with
      | dir lf rd ra es =>
          obtain ⟨hlf, hrd, hra, hes⟩ := (clean_dir_iff lf rd ra es).mp hn
          subst hlf; subst hrd; subst hra
          obtain ⟨k, hk⟩ := estimate_dir_size_clean_ok false .ok false es hn
          rw [remove_path_recursive_dir, hybrid_remove_dir_ok false .ok false es s k hk]
          rw [removeWithClassifier_dir]
          have hsd : smallDir (.dir false .ok false es) = decide (k < 100) := by
            rw [smallDir, hk]
          by_cases hk100 : k < 100
          · rw [if_pos hk100, if_pos (by rw [hsd]; exact decide_eq_true hk100)]
          · rw [if_neg hk100,
              if_neg (by rw [hsd]; simp only [decide_eq_true_eq]; exact hk100)]
            rw [parallel_remove_large_dir_dir]
            simp only [FsNode.weight] at hm
            rw [(ih es.weight (by omega)).2 es s le_rfl hes]
      | file sz mf rf =>
          rw [remove_path_recursive_file, removeWithClassifier_file]
      | symlink sz t rf =>
          rw [remove_path_recursive_symlink, removeWithClassifier_symlink]
    · intro es s hm hes
      cases es with
      | nil => rw [remove_entries_par_nil, removeEntriesWithClassifier_nil]
      | cons fault n rest =>
          obtain ⟨hf, hn, hrest⟩ := (clean_cons_iff fault n rest).mp hes
          subst hf
          simp only [EntryList.weight] at hm
          rw [remove_entries_par_ok, removeEntriesWithClassifier_ok]
          rw [(ih n.weight (by omega)).1 n s le_rfl hn]
          exact (ih rest.weight (by omega)).2 rest _ le_rfl hrest

end Rmrs

namespace Rmrs

/-- Exact statistics of the source engine on a fault-free snapshot. -/
theorem remove_path_recursive_clean (n : FsNode) (s : Stats) (h : n.clean = true) :
    remove_path_recursive n s
      = ({ files_deleted := s.files_deleted + n.nodeFiles,
           dirs_deleted := s.dirs_deleted + classifierDirCount smallDir n,
           bytes_deleted := s.bytes_deleted + n.nodeBytes,
           errors := s.errors }, .ok ()) := by
  rw [(rpr_eq_classifier n.weight).1 n s le_rfl h]
  exact (removeWithClassifier_spec n.weight smallDir).1 n s le_rfl h

/-- A listing of `k` one-byte regular files, all syscalls succeeding. -/
def filesList : Nat → EntryList
  | 0 => .nil
  | k + 1 => .cons .ok (.file 1 false false) (filesList k)

theorem estimate_go_filesList (k : Nat) : ∀ (c : Nat) (st : List FsNode), c + k ≤ 1000 →
    estimate_go (filesList k) c st = estimate_go .nil (c + k) st := by
  induction k with
  | zero => intro c st _; rfl
  | succ k ih =>
      intro c st h
      rw [filesList, estimate_go_cons_ok_file, if_neg (by omega), ih (c + 1) st (by omega)]
      congr 1
      omega

theorem remove_entries_par_filesList (k : Nat) : ∀ s : Stats,
    remove_entries_par (filesList k) s
      = { s with files_deleted := s.files_deleted + k,
                 bytes_deleted := s.bytes_deleted + k } := by
  induction k with
  | zero => intro s; rw [filesList, remove_entries_par_nil]; simp
  | succ k ih =>
      intro s
      rw [filesList, remove_entries_par_ok, remove_path_recursive_file]
      simp only [remove_file_with_stats, Bool.false_eq_true, if_false,
        Stats.add_bytes, Stats.increment_files, absorb_result_ok]
      rw [ih]
      simp only [Stats.mk.injEq, and_true, true_and]
      omega

theorem nodeFiles_file (sz : Nat) (mf rf : Bool) : (FsNode.file sz mf rf).nodeFiles = 1 := rfl

theorem dirEntries_cons_file (f : EntryFault) (sz : Nat) (mf rf : Bool) (rest : EntryList) :
    EntryList.dirEntries (.cons f (.file sz mf rf) rest) = EntryList.dirEntries rest := rfl

theorem fileCount_filesList (k : Nat) : EntryList.fileCount (filesList k) = k := by
  induction k with
  | zero => rw [filesList, EntryList.fileCount]
  | succ k ih => rw [filesList, EntryList.fileCount, nodeFiles_file, ih]; omega

theorem dirEntries_filesList (k : Nat) : EntryList.dirEntries (filesList k) = 0 := by
  induction k with
  | zero => rw [filesList]; rfl
  | succ k ih => rw [filesList, dirEntries_cons_file]; exact ih

theorem estimate_dir_size_files100 :
    estimate_dir_size (.dir false .ok false (filesList 100)) = .ok 100 := by
  rw [estimate_dir_size, estimate_go_nil_cons_dir, if_neg (by omega), if_neg (by simp)]
  rw [estimate_go_filesList 100 0 [] (by omega), estimate_go_nil_nil]

end Rmrs

namespace Rmrs

/-- C1 counterexample tree: a directory holding 100 one-byte files and no
subdirectory.  The probe counts 100, so the source routes it through the
fan-out path, whose final `fs::remove_dir` increments `dirs_deleted` for the
tree's own root. -/
def manyFilesDir : FsNode := .dir false .ok false (filesList 100)

/-- C1 is false as stated: on this successful run (`errors = 0`, result
`Ok`) over a tree with 100 non-directory entries and 0 directory entries,
`files_deleted = 100` as claimed but `dirs_deleted = 1`, not the exact
number (0) of directory entries: the fan-out path counts the subtree root
itself, which the bulk path never does. -/
theorem claim_C1_counterexample :
    parallel_remove_top_level [some manyFilesDir] 1 = (⟨100, 1, 100, 0⟩, .ok ())
    ∧ EntryList.fileCount (filesList 100) = 100
    ∧ EntryList.dirEntries (filesList 100) = 0 := by
  refine ⟨?_, fileCount_filesList 100, dirEntries_filesList 100⟩
  have hrun : remove_path_recursive manyFilesDir Stats.zero = (⟨100, 1, 100, 0⟩, .ok ()) := by
    rw [manyFilesDir, remove_path_recursive_dir,
      hybrid_remove_dir_ok false .ok false (filesList 100) Stats.zero 100
        estimate_dir_size_files100,
      if_neg (by omega), parallel_remove_large_dir_dir, if_neg (by simp), if_pos rfl,
      remove_entries_par_filesList]
    rfl
  rw [parallel_remove_top_level, if_pos (by simp)]
  simp only [List.foldl, handle_root_item, remove_path_recursive_root, hrun, absorb_result_ok]

end Rmrs

namespace Rmrs

/-- C1, amended: after a successful (fault-free) run, `files_deleted` does
grow by the exact number of non-directory entries and this is independent
of how subtrees were classified; but `dirs_deleted` is path-dependent: it
grows by `classifierDirCount`, which counts a fan-out-routed directory
itself plus its children's contributions, while a bulk-routed directory
contributes only the directory entries strictly inside it — so only a tree
routed entirely through the bulk path yields the exact directory-entry
count.  The first conjunct is the source engine (estimate-based `smallDir`
classification); the second covers every classification mix. -/
theorem claim_C1 (n : FsNode) (s : Stats) (h : n.clean = true) :
    remove_path_recursive n s
      = ({ files_deleted := s.files_deleted + n.nodeFiles,
           dirs_deleted := s.dirs_deleted + classifierDirCount smallDir n,
           bytes_deleted := s.bytes_deleted + n.nodeBytes,
           errors := s.errors }, .ok ())
    ∧ ∀ cl : FsNode → Bool,
        removeWithClassifier cl n s
          = ({ files_deleted := s.files_deleted + n.nodeFiles,
               dirs_deleted := s.dirs_deleted + classifierDirCount cl n,
               bytes_deleted := s.bytes_deleted + n.nodeBytes,
               errors := s.errors }, .ok ()) :=
  ⟨remove_path_recursive_clean n s h,
   fun cl => (removeWithClassifier_spec n.weight cl).1 n s le_rfl h⟩

/-- Witness for C1 at a concrete fault-free tree (one 3-byte file in a
directory). -/
theorem claim_C1_witness :
    FsNode.clean (.dir false .ok false (.cons .ok (.file 3 false false) .nil)) = true
    ∧ (remove_path_recursive (.dir false .ok false (.cons .ok (.file 3 false false) .nil))
          Stats.zero
        = ({ files_deleted := Stats.zero.files_deleted
               + (FsNode.dir false .ok false
                   (.cons .ok (.file 3 false false) .nil)).nodeFiles,
             dirs_deleted := Stats.zero.dirs_deleted
               + classifierDirCount smallDir
                   (.dir false .ok false (.cons .ok (.file 3 false false) .nil)),
             bytes_deleted := Stats.zero.bytes_deleted
               + (FsNode.dir false .ok false
                   (.cons .ok (.file 3 false false) .nil)).nodeBytes,
             errors := Stats.zero.errors }, .ok ())
       ∧ ∀ cl : FsNode → Bool,
           removeWithClassifier cl
               (.dir false .ok false (.cons .ok (.file 3 false false) .nil)) Stats.zero
             = ({ files_deleted := Stats.zero.files_deleted
                    + (FsNode.dir false .ok false
                        (.cons .ok (.file 3 false false) .nil)).nodeFiles,
                  dirs_deleted := Stats.zero.dirs_deleted
                    + classifierDirCount cl
                        (.dir false .ok false (.cons .ok (.file 3 false false) .nil)),
                  bytes_deleted := Stats.zero.bytes_deleted
                    + (FsNode.dir false .ok false
                        (.cons .ok (.file 3 false false) .nil)).nodeBytes,
                  errors := Stats.zero.errors }, .ok ())) :=
  ⟨by decide,
   claim_C1 (.dir false .ok false (.cons .ok (.file 3 false false) .nil)) Stats.zero
     (by decide)⟩

end Rmrs

namespace Rmrs

/-- C2 is false as stated: running the two roots `/tmp/missing` (absent) and
`/tmp/present/file.txt` (10 bytes) ends with `files_deleted = 1` and
`bytes_deleted = 10` as claimed, but `errors = 1`, not 0: the `NotFound`
from `fs::symlink_metadata` on the missing root propagates out of
`remove_path_recursive` and the dispatch loop counts it like any other
failure (src lines 52-55/80-83 have no `NotFound` exemption). -/
theorem claim_C2_counterexample :
    parallel_remove_top_level [none, some (.file 10 false false)] 8
      = (⟨1, 0, 10, 1⟩, .ok ()) := by
  rw [parallel_remove_top_level, if_neg (by simp)]
  simp only [flatten_roots, flatten_root, List.append_eq, List.nil_append, List.cons_append,
    List.foldl, handle_root_item, remove_path_recursive_root, remove_path_recursive_file,
    remove_file_with_stats, absorb_result_ok, absorb_result_error, cleanup_root,
    Stats.zero, Stats.increment_files, Stats.add_bytes, Stats.increment_errors]
  rfl

/-- C2, amended: a missing path makes `remove_path_recursive` fail with
`NotFound` before touching any counter, and the top-level dispatcher then
counts that failure in `errors` — it is NOT treated as already-done.  The
scenario of the claim therefore ends with `files_deleted = 1`,
`bytes_deleted = 10` and `errors = 1`, for every thread count (both
dispatch branches). -/
theorem claim_C2 (s : Stats) (nt : Nat) :
    remove_path_recursive_root none s = (s, .error .notFound)
    ∧ parallel_remove_top_level [none, some (.file 10 false false)] nt
        = (⟨1, 0, 10, 1⟩, .ok ()) := by
  refine ⟨rfl, ?_⟩
  by_cases h : nt ≤ 2
  · rw [parallel_remove_top_level, if_pos (by simp [h])]
    simp only [List.foldl, handle_root_item, remove_path_recursive_root,
      remove_path_recursive_file, remove_file_with_stats, absorb_result_ok,
      absorb_result_error, Stats.zero, Stats.increment_files, Stats.add_bytes,
      Stats.increment_errors]
    rfl
  · rw [parallel_remove_top_level, if_neg (by simp; omega)]
    simp only [flatten_roots, flatten_root, List.append_eq, List.nil_append,
      List.cons_append, List.foldl, handle_root_item, remove_path_recursive_root,
      remove_path_recursive_file, remove_file_with_stats, absorb_result_ok,
      absorb_result_error, cleanup_root, Stats.zero, Stats.increment_files,
      Stats.add_bytes, Stats.increment_errors]
    rfl

end Rmrs

namespace Rmrs

/-- C3 is false as stated for top-level roots in the flatten branch: the
single root is a symlink (reported size 1) to a directory containing one
7-byte file.  With `1 root < 8 threads` the dispatcher calls the
link-following `Path::is_dir()` and `fs::read_dir` on it, so the TARGET
directory's child is listed and deleted (`files_deleted = 1`,
`bytes_deleted = 7` — the target file's size, not the symlink's), and the
cleanup `fs::remove_dir` on the symlink fails (`errors = 1`) while the
symlink itself is never removed. -/
theorem claim_C3_counterexample :
    parallel_remove_top_level
        [some (.symlink 1 (.toDir false (.cons .ok (.file 7 false false) .nil)) false)] 8
      = (⟨1, 0, 7, 1⟩, .ok ()) := by
  rw [parallel_remove_top_level, if_neg (by simp)]
  simp only [flatten_roots, flatten_root, Bool.false_eq_true, if_false, entries_to_items,
    List.append_eq, List.nil_append, List.foldl, handle_root_item,
    remove_path_recursive_root, remove_path_recursive_file, remove_file_with_stats,
    absorb_result_ok, cleanup_root, Stats.zero, Stats.increment_files, Stats.add_bytes,
    Stats.increment_errors]

/-- C3, amended: wherever a symlink reaches `remove_path_recursive` — during
recursion or as a directly dispatched root — it is handled by
`remove_file_with_stats` as a single entity and the outcome is independent
of what the link points to (first two conjuncts).  But in the flatten
branch (fewer roots than threads) a top-level root that is a symlink to a
listable directory is replaced by the TARGET directory's children, which
are then deleted (third conjunct). -/
theorem claim_C3 (sz : Nat) (t : LinkTarget) (rf : Bool) (s : Stats) :
    remove_path_recursive (.symlink sz t rf) s = remove_file_with_stats (.symlink sz t rf) s
    ∧ remove_path_recursive (.symlink sz t rf) s
        = remove_path_recursive (.symlink sz .nonDir rf) s
    ∧ ∀ es : EntryList,
        flatten_root (some (.symlink sz (.toDir false es) rf)) = entries_to_items es := by
  refine ⟨remove_path_recursive_symlink sz t rf s, ?_, fun es => ?_⟩
  · rw [remove_path_recursive_symlink, remove_path_recursive_symlink]
    cases rf <;> simp [remove_file_with_stats]
  · rfl

/-- C4 is false in its `bytesDeleted` part: a single root file of 10 bytes
whose `fs::remove_file` fails ends the run with `errors = 1` and
`files_deleted = dirs_deleted = 0` as claimed, but `bytes_deleted = 10`,
because `remove_file_with_stats` adds the observed size BEFORE attempting
the deletion (src lines 218-222). -/
theorem claim_C4_counterexample :
    parallel_remove_top_level [some (.file 10 false true)] 1 = (⟨0, 0, 10, 1⟩, .ok ()) := by
  rw [parallel_remove_top_level, if_pos (by simp)]
  simp only [List.foldl, handle_root_item, remove_path_recursive_root,
    remove_path_recursive_file, remove_file_with_stats, Bool.false_eq_true, if_false,
    if_pos rfl, absorb_result_error, Stats.zero, Stats.add_bytes, Stats.increment_errors]
  rfl

/-- C4, amended: a failed `fs::remove_file` yields exactly one
`increment_errors` at the caller and increments neither `files_deleted` nor
`dirs_deleted`, but `bytes_deleted` has already been increased by the
file's observed size before the attempt, so a failed file deletion DOES
contribute its size to `bytes_deleted`. -/
theorem claim_C4 (sz : Nat) (s : Stats) :
    remove_file_with_stats (.file sz false true) s = (s.add_bytes sz, .error .other)
    ∧ handle_root_item (some (.file sz false true)) s
        = { s with bytes_deleted := s.bytes_deleted + sz, errors := s.errors + 1 } := by
  constructor
  · simp [remove_file_with_stats]
  · rw [handle_root_item, remove_path_recursive_root, remove_path_recursive_file,
      remove_file_with_stats]
    rfl

end Rmrs

namespace Rmrs

/-- C5: on a fault-free static tree, `bytes_deleted` grows by exactly the
sum of the files' observed sizes, through the source engine and through
every Small/Large classification mix alike — the bulk path's
`entry.metadata()` accounting and the fan-out path's `fs::symlink_metadata`
accounting total identically. -/
theorem claim_C5 (n : FsNode) (s : Stats) (h : n.clean = true) :
    (remove_path_recursive n s).1.bytes_deleted = s.bytes_deleted + n.nodeBytes
    ∧ ∀ cl : FsNode → Bool,
        (removeWithClassifier cl n s).1.bytes_deleted = s.bytes_deleted + n.nodeBytes := by
  constructor
  · rw [remove_path_recursive_clean n s h]
  · intro cl
    rw [(removeWithClassifier_spec n.weight cl).1 n s le_rfl h]

/-- Witness for C5 at a concrete fault-free tree (a 4-byte file plus a
subdirectory holding a 6-byte file; 10 bytes total). -/
theorem claim_C5_witness :
    FsNode.clean (.dir false .ok false (.cons .ok (.file 4 false false)
        (.cons .ok (.dir false .ok false (.cons .ok (.file 6 false false) .nil)) .nil))) = true
    ∧ ((remove_path_recursive (.dir false .ok false (.cons .ok (.file 4 false false)
          (.cons .ok (.dir false .ok false (.cons .ok (.file 6 false false) .nil)) .nil)))
          Stats.zero).1.bytes_deleted
        = Stats.zero.bytes_deleted
          + (FsNode.dir false .ok false (.cons .ok (.file 4 false false)
              (.cons .ok (.dir false .ok false (.cons .ok (.file 6 false false) .nil))
                .nil))).nodeBytes
       ∧ ∀ cl : FsNode → Bool,
          (removeWithClassifier cl (.dir false .ok false (.cons .ok (.file 4 false false)
              (.cons .ok (.dir false .ok false (.cons .ok (.file 6 false false) .nil)) .nil)))
              Stats.zero).1.bytes_deleted
            = Stats.zero.bytes_deleted
              + (FsNode.dir false .ok false (.cons .ok (.file 4 false false)
                  (.cons .ok (.dir false .ok false (.cons .ok (.file 6 false false) .nil))
                    .nil))).nodeBytes) :=
  ⟨by decide,
   claim_C5 (.dir false .ok false (.cons .ok (.file 4 false false)
       (.cons .ok (.dir false .ok false (.cons .ok (.file 6 false false) .nil)) .nil)))
     Stats.zero (by decide)⟩

/-- C6 is false as stated: in `parallel_remove_large_dir` a `NotFound`
outcome of the final `fs::remove_dir` (here: an already-emptied directory
that vanished before the final removal) increments `errors` exactly like
any other failure — the source matches `Ok` against every `Err` without
inspecting the kind (src lines 196-202). -/
theorem claim_C6_counterexample :
    parallel_remove_large_dir (.dir false .notFound false .nil) Stats.zero
      = (⟨0, 0, 0, 1⟩, .ok ()) := by
  rw [parallel_remove_large_dir_dir, if_neg (by simp), if_neg (by simp),
    remove_entries_par_nil]
  rfl

/-- C6, amended: after the children of a fan-out directory are processed,
ANY failure of the final `fs::remove_dir` — `NotFound` included — increments
`errors` by one and leaves `dirs_deleted` untouched; only a successful
removal increments `dirs_deleted`.  (The `NotFound`-is-success-equivalent
treatment exists only in the top-level cleanup loop, not here.) -/
theorem claim_C6 (rd : RmOutcome) (es : EntryList) (s : Stats) (h : rd ≠ RmOutcome.ok) :
    parallel_remove_large_dir (.dir false rd false es) s
        = ((remove_entries_par es s).increment_errors, .ok ())
    ∧ parallel_remove_large_dir (.dir false .ok false es) s
        = ((remove_entries_par es s).increment_dirs, .ok ()) := by
  constructor
  · rw [parallel_remove_large_dir_dir, if_neg (by simp), if_neg h]
  · rw [parallel_remove_large_dir_dir, if_neg (by simp), if_pos rfl]

/-- Witness for C6 at `rd = notFound`, an empty listing and zeroed
counters. -/
theorem claim_C6_witness :
    RmOutcome.notFound ≠ RmOutcome.ok
    ∧ (parallel_remove_large_dir (.dir false .notFound false .nil) Stats.zero
          = ((remove_entries_par .nil Stats.zero).increment_errors, .ok ())
       ∧ parallel_remove_large_dir (.dir false .ok false .nil) Stats.zero
          = ((remove_entries_par .nil Stats.zero).increment_dirs, .ok ())) :=
  ⟨by decide, claim_C6 .notFound .nil Stats.zero (by decide)⟩

end Rmrs

namespace Rmrs

/-- C7 is false as stated: an entry whose `file_type()` read fails aborts
the probe — `entry.file_type()?` (src line 143) propagates the failure, so
`estimate_dir_size` returns an error even though the directory listing
itself succeeded. -/
theorem claim_C7_counterexample :
    estimate_dir_size (.dir false .ok false (.cons .typeErr (.file 5 false false) .nil))
      = .error .other := by
  rw [estimate_dir_size, estimate_go_nil_cons_dir, if_neg (by omega), if_neg (by simp),
    estimate_go_cons_typeErr, if_neg (by omega)]

/-- C7, amended: only entries the `read_dir` iterator fails to yield are
skipped silently (`if let Ok(entry)`, src line 137) — the estimate is
unchanged by such an entry; an entry that IS yielded but whose
`file_type()` read fails makes the probe return that failure (unless the
1000-entry cap was already passed). -/
theorem estimate_dir_size_dir (lf : Bool) (rd : RmOutcome) (ra : Bool) (es : EntryList) :
    estimate_dir_size (.dir lf rd ra es)
      = if lf then .error .other else estimate_go es 0 [] := by
  rw [estimate_dir_size, estimate_go_nil_cons_dir, if_neg (by omega)]

theorem claim_C7 (lf : Bool) (rd : RmOutcome) (ra : Bool) (n : FsNode) (es : EntryList) :
    estimate_dir_size (.dir lf rd ra (.cons .iterErr n es))
        = estimate_dir_size (.dir lf rd ra es)
    ∧ estimate_dir_size (.dir false rd ra (.cons .typeErr n es)) = .error .other := by
  constructor
  · rw [estimate_dir_size_dir, estimate_dir_size_dir]
    by_cases hlf : lf = true
    · rw [if_pos hlf, if_pos hlf]
    · rw [if_neg hlf, if_neg hlf, estimate_go_cons_iterErr]
  · rw [estimate_dir_size_dir, if_neg (by simp), estimate_go_cons_typeErr,
      if_neg (by omega)]

/-- C8: a successful size estimate is never above 1001 (the traversal stops
once the running count passes 1000), and `hybrid_remove` uses it solely to
route the directory: estimate `< 100` to the bulk
`remove_dir_all_with_stats`, estimate `≥ 100` to the fan-out
`parallel_remove_large_dir`. -/
theorem claim_C8 (lf : Bool) (rd : RmOutcome) (ra : Bool) (es : EntryList) (k : Nat)
    (s : Stats) (h : estimate_dir_size (.dir lf rd ra es) = .ok k) :
    k ≤ 1001
    ∧ hybrid_remove (.dir lf rd ra es) s
        = if k < 100 then remove_dir_all_with_stats (.dir lf rd ra es) s
          else parallel_remove_large_dir (.dir lf rd ra es) s :=
  ⟨estimate_dir_size_le (.dir lf rd ra es) k h, hybrid_remove_dir_ok lf rd ra es s k h⟩

/-- Witness for C8 at an empty directory, whose estimate is 0. -/
theorem claim_C8_witness :
    estimate_dir_size (.dir false .ok false .nil) = .ok 0
    ∧ (0 ≤ 1001
       ∧ hybrid_remove (.dir false .ok false .nil) Stats.zero
          = if 0 < 100 then remove_dir_all_with_stats (.dir false .ok false .nil) Stats.zero
            else parallel_remove_large_dir (.dir false .ok false .nil) Stats.zero) := by
  have h : estimate_dir_size (.dir false .ok false .nil) = .ok 0 := by
    rw [estimate_dir_size, estimate_go_nil_cons_dir, if_neg (by omega), if_neg (by simp),
      estimate_go_nil_nil]
  exact ⟨h, claim_C8 false .ok false .nil 0 Stats.zero h⟩

end Rmrs

namespace Rmrs

/-- The `/tmp/x` scenario tree of C9: `a.txt` (10 bytes), and `b/`
containing `c.txt` (5 bytes) and the empty directory `d/`; every syscall
succeeds. -/
def xTree : FsNode :=
  .dir false .ok false
    (.cons .ok (.file 10 false false)
      (.cons .ok
        (.dir false .ok false
          (.cons .ok (.file 5 false false)
            (.cons .ok (.dir false .ok false .nil) .nil)))
        .nil))

/-- C9: deleting the single root `/tmp/x` ends with `files_deleted = 2`,
`dirs_deleted = 2`, `bytes_deleted = 15`, `errors = 0` and a successful
result, for every thread count.  (With ≥ 2 threads the flatten branch
counts `d` and the root `x` in `dirs_deleted`; with 1 thread the bulk
branch counts `b` and `d`; the totals agree and every removal syscall in
the run succeeds, i.e. `/tmp/x` is gone.) -/
theorem claim_C9 (nt : Nat) :
    parallel_remove_top_level [some xTree] nt = (⟨2, 2, 15, 0⟩, .ok ()) := by
  by_cases h : nt ≤ 1
  · rw [parallel_remove_top_level, if_pos (by simp [h])]
    simp only [xTree, List.foldl, handle_root_item, remove_path_recursive_root,
      remove_path_recursive, hybrid_remove, parallel_remove_large_dir, remove_entries_par,
      estimate_dir_size, estimate_go, remove_dir_all_with_stats, count_items_in_dir,
      count_entries, remove_file_with_stats, absorb_result, Stats.zero,
      Stats.increment_files, Stats.increment_dirs, Stats.add_bytes, Stats.increment_errors]
    rfl
  · rw [parallel_remove_top_level, if_neg (by simp; omega)]
    simp only [xTree, flatten_roots, flatten_root, Bool.false_eq_true, if_false,
      entries_to_items, List.append_eq, List.nil_append, List.foldl, handle_root_item,
      remove_path_recursive_root, remove_path_recursive, hybrid_remove,
      parallel_remove_large_dir, remove_entries_par, estimate_dir_size, estimate_go,
      remove_dir_all_with_stats, count_items_in_dir, count_entries, remove_file_with_stats,
      absorb_result, cleanup_root, Stats.zero, Stats.increment_files, Stats.increment_dirs,
      Stats.add_bytes, Stats.increment_errors]
    rfl

/-- C10: `parallel_remove_top_level` returns `Ok(())` on every input — both
dispatch branches end in a literal `Ok(())` after absorbing every
per-entity failure into the `errors` counter, so the `if let Err(e)`
reporting branch in `main` (src lines 248-250) can never fire. -/
theorem claim_C10 (paths : List (Option FsNode)) (nt : Nat) :
    (parallel_remove_top_level paths nt).2 = .ok () := by
  by_cases h : paths.length ≥ nt
  · rw [parallel_remove_top_level, if_pos h]
  · rw [parallel_remove_top_level, if_neg h]

end Rmrs
